import Mathlib

set_option maxRecDepth 100000

/-!
Verification of the caption-generation core of `captionGen.py`
(`group_words_into_captions`, `create_text_image`, `create_caption_clips`).

Times are embedded as exact rationals (the Python floats are only ever
compared and subtracted), pixel widths returned by the text measurer as
integers (PIL bounding-box coordinates), and the drawing surface as the
list of text-stamp operations issued to the PIL draw object, in order.
Font loading is abstracted by an environment function
`loadFont : String → Option Font`: `some` models a successful
`ImageFont.truetype` call, `none` a raising one.
-/

/-- A transcribed word with its timing, as produced by `transcribe_audio`:
the dict `\x7b'word', 'start', 'end'\x7d`. -/
structure WordTiming where
  word : String
  start : ℚ
  «end» : ℚ
deriving DecidableEq, Repr

/-- One output record of `group_words_into_captions`: the dict
`\x7b'word': combined_text, 'start', 'end'\x7d`.  The extra field `words`
records `current_caption_words`, the list of input words the combined
text was space-joined from (the same list whose length advances the
cursor `i`). -/
structure CaptionGroup where
  word : String
  start : ℚ
  «end» : ℚ
  words : List WordTiming
deriving DecidableEq, Repr

/-- An abstract handle to a loaded PIL font. -/
structure Font where
  id : String
deriving DecidableEq, Repr

/-- The font returned by `ImageFont.load_default()`. -/
def defaultFont : Font := ⟨"PIL.default"⟩

/-- The text-measurement capability: given a font, a font size and a
string, the width and height of the rendered bounding box
(`font.getbbox`, `bbox[2]-bbox[0]` and `bbox[3]-bbox[1]`). -/
abbrev TextMeasurer := Font → ℕ → String → ℤ × ℤ

/-- The `try: ImageFont.truetype ... except: ImageFont.load_default()`
block at the top of `group_words_into_captions`. -/
def loadFontOrDefault (loadFont : String → Option Font) (font_path : String) : Font :=
  match loadFont font_path with
  | some f => f
  | none => defaultFont

/-- The `while i < len(word_timings)` loop of `group_words_into_captions`,
with the measured-width function `m` and the precomputed
`max_text_width` abstracted out.  Each iteration starts a group with the
word at the cursor, optionally joins the next word when none of the
pause / duration / width break conditions fires, emits the group and
advances the cursor past the words consumed. -/
def groupWordsRec (m : String → ℚ) (max_text_width : ℚ)
    (max_duration_per_caption : ℚ) (pause_threshold : ℚ) :
    (l : List WordTiming) → List CaptionGroup
  | [] => []
  | [w] => [⟨w.word, w.start, w.«end», [w]⟩]
  | w :: next :: rest =>
    if next.start - w.«end» > pause_threshold then
      ⟨w.word, w.start, w.«end», [w]⟩ ::
        groupWordsRec m max_text_width max_duration_per_caption pause_threshold (next :: rest)
    else if next.«end» - w.start > max_duration_per_caption then
      ⟨w.word, w.start, w.«end», [w]⟩ ::
        groupWordsRec m max_text_width max_duration_per_caption pause_threshold (next :: rest)
    else if m (w.word ++ " " ++ next.word) ≤ max_text_width then
      ⟨w.word ++ " " ++ next.word, w.start, next.«end», [w, next]⟩ ::
        groupWordsRec m max_text_width max_duration_per_caption pause_threshold rest
    else
      ⟨w.word, w.start, w.«end», [w]⟩ ::
        groupWordsRec m max_text_width max_duration_per_caption pause_threshold (next :: rest)
termination_by structural l => l

/-- `group_words_into_captions(word_timings, video_width, font_size,
font_path, max_duration_per_caption, pause_threshold,
max_text_width_ratio)`: load the font (falling back to the default),
compute `max_text_width = video_width * max_text_width_ratio`, and run
the grouping loop. -/
def group_words_into_captions (loadFont : String → Option Font) (measure : TextMeasurer)
    (word_timings : List WordTiming) (video_width : ℚ) (font_size : ℕ) (font_path : String)
    (max_duration_per_caption : ℚ) (pause_threshold : ℚ) ( max_text_width_ratio : ℚ) :
    List CaptionGroup :=
  let font := loadFontOrDefault loadFont font_path
  let max_text_width := video_width * max_text_width_ratio
  groupWordsRec (fun s => (((measure font font_size s).1 : ℤ) : ℚ)) max_text_width
    max_duration_per_caption pause_threshold word_timings

/-- The only failure the rendering stage can raise in the embedding: the
`ImageFont.truetype` call in `create_text_image` raising. -/
inductive FontError where
  | fontLoadFailure : FontError
deriving DecidableEq, Repr

/-- One `draw.text((x, y), text, font=font, fill=fill)` call issued to the
PIL draw object. -/
structure DrawOp where
  pos : ℤ × ℤ
  text : String
  fill : ℕ × ℕ × ℕ × ℕ
deriving DecidableEq, Repr

/-- The RGBA canvas built by `create_text_image`: its dimensions, its
background fill, and the text-stamp operations drawn onto it in order. -/
structure TextImage where
  width : ℤ
  height : ℤ
  bg : ℕ × ℕ × ℕ × ℕ
  ops : List DrawOp
deriving DecidableEq, Repr

/-- The offsets produced by `range(-border_size, border_size + 1)`. -/
def borderOffsets (border_size : ℕ) : List ℤ :=
  (List.range (2 * border_size + 1)).map (fun (k : ℕ) => (k : ℤ) - (border_size : ℤ))

/-- `create_text_image(text, size, font_size, color, font_path, bg_color,
border_size)`: enlarge the canvas by the border and half the font size,
load the font (raising on failure — there is no fallback here), center
the measured text, stamp the border in black at every offset of the
square `[-border_size, border_size]²` (x offset outer loop, y offset
inner), then draw the main text in `color` on top. -/
def create_text_image (loadFont : String → Option Font) (measure : TextMeasurer)
    (text : String) (size : ℤ × ℤ) (font_size : ℕ) (color : ℕ × ℕ × ℕ × ℕ)
    (font_path : String) (bg_color : ℕ × ℕ × ℕ × ℕ) (border_size : ℕ) :
    Except FontError TextImage :=
  match loadFont font_path with
  | none => .error .fontLoadFailure
  | some font =>
    let increased_size : ℤ × ℤ :=
      (size.1 + (border_size : ℤ) * 2, size.2 + (border_size : ℤ) * 2 + ((font_size / 2 : ℕ) : ℤ))
    let text_width := (measure font font_size text).1
    let text_height := (measure font font_size text).2
    let position : ℤ × ℤ :=
      (Int.fdiv (increased_size.1 - text_width) 2, Int.fdiv (increased_size.2 - text_height) 2)
    let border_ops := (borderOffsets border_size).flatMap (fun x_offset =>
      (borderOffsets border_size).map (fun y_offset =>
        ⟨(position.1 + x_offset, position.2 + y_offset), text, (0, 0, 0, 255)⟩))
    .ok ⟨increased_size.1, increased_size.2, bg_color,
      border_ops ++ [⟨position, text, color⟩]⟩

instance {ε α : Type} [DecidableEq ε] [DecidableEq α] : DecidableEq (Except ε α) := fun a b =>
  match a, b with
  | .error e, .error f =>
    if h : e = f then .isTrue (by rw [h]) else .isFalse (by intro hc; cases hc; exact h rfl)
  | .ok x, .ok y =>
    if h : x = y then .isTrue (by rw [h]) else .isFalse (by intro hc; cases hc; exact h rfl)
  | .error _, .ok _ => .isFalse (by intro hc; cases hc)
  | .ok _, .error _ => .isFalse (by intro hc; cases hc)

/-- A caption clip as assembled in `create_caption_clips`: the rendered
image array, the clip duration (`word['end'] - word['start']`), the clip
start time and the vertical position it is composited at. -/
structure CaptionClip where
  img : TextImage
  duration : ℚ
  start : ℚ
  y_position : ℚ
deriving DecidableEq, Repr

/-- The `for word in word_timings` loop of `create_caption_clips`: each
caption is rendered with canvas base size `(video_width, 120)`, font
size `110`, white fill and border size `8`; a raising font load aborts
the loop (there is no handler around `create_text_image`). -/
def captionClipsGo (loadFont : String → Option Font) (measure : TextMeasurer)
    (video_width : ℤ) (y_position : ℚ) (font_path : String) :
    (l : List CaptionGroup) → Except FontError (List CaptionClip)
  | [] => .ok []
  | word :: rest =>
    match create_text_image loadFont measure word.word (video_width, 120) 110
        (255, 255, 255, 255) font_path (0, 0, 0, 0) 8 with
    | .error e => .error e
    | .ok img =>
      match captionClipsGo loadFont measure video_width y_position font_path rest with
      | .error e => .error e
      | .ok clips =>
        .ok (⟨img, word.«end» - word.start, word.start, y_position⟩ :: clips)
termination_by structural l => l

/-- `create_caption_clips(word_timings, video_width, video_height,
font_path)`: compute the rendered caption height
`120 + border_size*2 + font_size // 2` and the centered y position
`video_height/2 - caption_rendered_height/2`, then build one clip per
grouped caption. -/
def create_caption_clips (loadFont : String → Option Font) (measure : TextMeasurer)
    (word_timings : List CaptionGroup) (video_width : ℤ) (video_height : ℚ)
    (font_path : String) : Except FontError (List CaptionClip) :=
  let font_size : ℕ := 110
  let caption_height_base : ℕ := 120
  let border_size : ℕ := 8
  let caption_rendered_height : ℚ :=
    ((caption_height_base + border_size * 2 + font_size / 2 : ℕ) : ℚ)
  let y_position : ℚ := video_height / 2 - caption_rendered_height / 2
  captionClipsGo loadFont measure video_width y_position font_path word_timings

/-! Concrete fixtures used by witnesses and counterexamples. -/

/-- A font path used in concrete instantiations. -/
def cPath : String := "font.ttf"

/-- A successfully loaded font. -/
def cFont : Font := ⟨"loaded"⟩

/-- An environment in which every font path loads. -/
def cLoad : String → Option Font := fun _ => some cFont

/-- An environment in which no font path loads. -/
def cLoadFail : String → Option Font := fun _ => none

/-- A deterministic measurer: width ten pixels per character, height 50. -/
def cMeasure : TextMeasurer := fun _ _ s => (((10 * s.length : ℕ) : ℤ), 50)

/-- A measurer reporting every string as 2000 pixels wide. -/
def cWideMeasure : TextMeasurer := fun _ _ _ => (2000, 100)

/-- Concrete word timings. -/
def cW1 : WordTiming := ⟨"an", 0, 0.2⟩

/-- Second concrete word timing, 0.05 s after `cW1`. -/
def cW2 : WordTiming := ⟨"gero", 0.25, 0.45⟩

/-- A grouped caption lasting ten seconds. -/
def cLong : CaptionGroup := ⟨"hello", 0, 10, [⟨"hello", 0, 10⟩]⟩

/-- A one-word grouped caption whose text is far narrower than the
frame, used in the canvas-size counterexample. -/
def cGroupHi : CaptionGroup := ⟨"hi", 0, 1, [⟨"hi", 0, 1⟩]⟩

/-- The centered text position computed inside `create_text_image` from
the enlarged canvas and the measured bounding box. -/
def ctiPos (measure : TextMeasurer) (text : String) (size : ℤ × ℤ) (font_size : ℕ)
    (border_size : ℕ) (font : Font) : ℤ × ℤ :=
  (Int.fdiv (size.1 + (border_size : ℤ) * 2 - (measure font font_size text).1) 2,
   Int.fdiv (size.2 + (border_size : ℤ) * 2 + ((font_size / 2 : ℕ) : ℤ) -
     (measure font font_size text).2) 2)

/-! Helper lemmas. -/

/-- Induction on lists with the empty, singleton and two-or-more cases,
matching the shape of the grouping loop. -/
theorem twoStepInduction {α : Type} {p : List α → Prop} (h0 : p []) (h1 : ∀ a, p [a])
    (h2 : ∀ a b l, p l → p (b :: l) → p (a :: b :: l)) : ∀ l, p l
  | [] => h0
  | [a] => h1 a
  | a :: b :: l => h2 a b l (twoStepInduction h0 h1 h2 l) (twoStepInduction h0 h1 h2 (b :: l))
termination_by structural l => l

/-- Concatenating the `words` fields of the groups, in order, gives back
the input word sequence. -/
theorem groupRec_words_join (m : String → ℚ) (mw md pt : ℚ) :
    ∀ l, ((groupWordsRec m mw md pt l).map CaptionGroup.words).flatten = l := by
  refine twoStepInduction ?_ ?_ ?_
  · simp [groupWordsRec]
  · intro a; simp [groupWordsRec]
  · intro a b l ih1 ih2
    simp only [groupWordsRec]
    split_ifs <;> simp [ih1, ih2]

/-- Every emitted group holds exactly one or two words. -/
theorem groupRec_size (m : String → ℚ) (mw md pt : ℚ) :
    ∀ l, ∀ g ∈ groupWordsRec m mw md pt l, g.words.length = 1 ∨ g.words.length = 2 := by
  refine twoStepInduction ?_ ?_ ?_
  · simp [groupWordsRec]
  · intro a g hg
    simp only [groupWordsRec, List.mem_singleton] at hg
    subst hg
    exact Or.inl rfl
  · intro a b l ih1 ih2 g hg
    simp only [groupWordsRec] at hg
    split_ifs at hg <;> rcases List.mem_cons.mp hg with h | h
    · exact h ▸ Or.inl rfl
    · exact ih2 g h
    · exact h ▸ Or.inl rfl
    · exact ih2 g h
    · exact h ▸ Or.inr rfl
    · exact ih1 g h
    · exact h ▸ Or.inl rfl
    · exact ih2 g h

/-- Every emitted two-word group satisfies the width, pause and duration
constraints that gated the join, and its fields are determined by its
two words. -/
theorem groupRec_two_word (m : String → ℚ) (mw md pt : ℚ) :
    ∀ l, ∀ g ∈ groupWordsRec m mw md pt l, ∀ w1 w2, g.words = [w1, w2] →
      g.word = w1.word ++ " " ++ w2.word ∧ m (w1.word ++ " " ++ w2.word) ≤ mw ∧
      w2.start - w1.«end» ≤ pt ∧ g.«end» - g.start ≤ md ∧
      g.start = w1.start ∧ g.«end» = w2.«end» := by
  refine twoStepInduction ?_ ?_ ?_
  · simp [groupWordsRec]
  · intro a g hg w1 w2 hw
    simp only [groupWordsRec, List.mem_singleton] at hg
    subst hg
    simp at hw
  · intro a b l ih1 ih2 g hg w1 w2 hw
    simp only [groupWordsRec] at hg
    split_ifs at hg with hp hd hwidth <;> rcases List.mem_cons.mp hg with h | h
    · subst h; simp at hw
    · exact ih2 g h w1 w2 hw
    · subst h; simp at hw
    · exact ih2 g h w1 w2 hw
    · subst h
      obtain ⟨rfl, rfl⟩ : a = w1 ∧ b = w2 := by simpa using hw
      refine ⟨rfl, hwidth, ?_, ?_, rfl, rfl⟩
      · exact sub_le_iff_le_add.mpr (le_of_not_lt (by simpa [sub_le_iff_le_add] using hp))
      · exact le_of_not_lt hd
    · exact ih1 g h w1 w2 hw
    · subst h; simp at hw
    · exact ih2 g h w1 w2 hw

/-- A nonempty input always produces at least one group. -/
theorem groupRec_ne_nil (m : String → ℚ) (mw md pt : ℚ) :
    ∀ l, l ≠ [] → groupWordsRec m mw md pt l ≠ [] := by
  intro l
  match l with
  | [] => simp
  | [a] => intro _; simp [groupWordsRec]
  | a :: b :: r =>
    intro _
    simp only [groupWordsRec]
    split_ifs <;> simp

/-- Membership in the stamped offset range `range(-b, b + 1)`. -/
theorem mem_borderOffsets {b : ℕ} {x : ℤ} :
    x ∈ borderOffsets b ↔ -(b : ℤ) ≤ x ∧ x ≤ b := by
  constructor
  · intro hx
    obtain ⟨k, hk, hkx⟩ := List.mem_map.mp hx
    rw [List.mem_range] at hk
    omega
  · intro h
    apply List.mem_map.mpr
    refine ⟨(x + (b : ℤ)).toNat, List.mem_range.mpr ?_, ?_⟩ <;> omega

/-- One step of the grouping loop on a cursor with a successor word:
the next word joins exactly when no break condition fires, the joined
group ends at the next word's end, and the head group holds either both
words or the first alone. -/
theorem groupRec_step (m : String → ℚ) (mw md pt : ℚ) (w next : WordTiming)
    (rest : List WordTiming) :
    ∃ g gs, groupWordsRec m mw md pt (w :: next :: rest) = g :: gs ∧
      (g.words = [w, next] ↔
        ¬(next.start - w.«end» > pt) ∧ ¬(next.«end» - w.start > md) ∧
        m (w.word ++ " " ++ next.word) ≤ mw) ∧
      (g.words = [w, next] → g.«end» = next.«end») ∧
      (g.words = [w, next] ∨ g.words = [w]) := by
  simp only [groupWordsRec]
  split_ifs with hp hd hw
  · refine ⟨⟨w.word, w.start, w.«end», [w]⟩, _, rfl, ?_, ?_, Or.inr rfl⟩
    · exact iff_of_false (by simp) (fun h => h.1 hp)
    · intro h
      simp at h
  · refine ⟨⟨w.word, w.start, w.«end», [w]⟩, _, rfl, ?_, ?_, Or.inr rfl⟩
    · exact iff_of_false (by simp) (fun h => h.2.1 hd)
    · intro h
      simp at h
  · exact ⟨⟨w.word ++ " " ++ next.word, w.start, next.«end», [w, next]⟩, _, rfl,
      iff_of_true rfl ⟨hp, hd, hw⟩, fun _ => rfl, Or.inl rfl⟩
  · refine ⟨⟨w.word, w.start, w.«end», [w]⟩, _, rfl, ?_, ?_, Or.inr rfl⟩
    · exact iff_of_false (by simp) (fun h => hw h.2.2)
    · intro h
      simp at h

/-- C1: concatenating the word lists of the caption groups returned by
`group_words_into_captions`, in output order, reproduces the input
sequence exactly — no word dropped, duplicated, or reordered, each
group a contiguous slice — and empty input yields empty output. -/
theorem C1_partition_invariant (loadFont : String → Option Font) (measure : TextMeasurer)
    (video_width : ℚ) (font_size : ℕ) (font_path : String)
    (max_duration_per_caption pause_threshold : ℚ) ( max_text_width_ratio : ℚ) :
    (∀ word_timings, ((group_words_into_captions loadFont measure word_timings video_width
        font_size font_path max_duration_per_caption pause_threshold
        max_text_width_ratio).map CaptionGroup.words).flatten = word_timings) ∧
    group_words_into_captions loadFont measure [] video_width font_size font_path
      max_duration_per_caption pause_threshold max_text_width_ratio = [] := by
  constructor
  · intro ws
    exact groupRec_words_join _ _ _ _ ws
  · rfl

/-- C2: every caption group emitted by `group_words_into_captions`
contains exactly 1 or 2 words, never 3 or more. -/
theorem C2_group_size_bound (loadFont : String → Option Font) (measure : TextMeasurer)
    (word_timings : List WordTiming) (video_width : ℚ) (font_size : ℕ) (font_path : String)
    (max_duration_per_caption pause_threshold : ℚ) ( max_text_width_ratio : ℚ)
    (g : CaptionGroup)
    (hg : g ∈ group_words_into_captions loadFont measure word_timings video_width font_size
      font_path max_duration_per_caption pause_threshold max_text_width_ratio) :
    g.words.length = 1 ∨ g.words.length = 2 :=
  groupRec_size _ _ _ _ word_timings g hg

/-- Witness for C2 at a concrete one-word input. -/
theorem C2_group_size_bound_witness :
    (⟨"an", 0, 0.2, [cW1]⟩ : CaptionGroup) ∈
      group_words_into_captions cLoad cMeasure [cW1] 1000 110 cPath 1.5 0.3 0.9 ∧
    ((⟨"an", 0, 0.2, [cW1]⟩ : CaptionGroup).words.length = 1 ∨
      (⟨"an", 0, 0.2, [cW1]⟩ : CaptionGroup).words.length = 2) :=
  ⟨by with_unfolding_all decide,
    C2_group_size_bound cLoad cMeasure [cW1] 1000 110 cPath 1.5 0.3 0.9 _
      (by with_unfolding_all decide)⟩

/-- C3: when a group is started at a word with a successor, the
successor joins the group exactly when none of the pause, duration and
width break conditions fires, and on a join the group's end becomes the
successor's end (otherwise the group stays at one word). -/
theorem C3_join_conditions (loadFont : String → Option Font) (measure : TextMeasurer)
    (video_width : ℚ) (font_size : ℕ) (font_path : String)
    (max_duration_per_caption pause_threshold : ℚ) ( max_text_width_ratio : ℚ)
    (w next : WordTiming) (rest : List WordTiming) :
    ∃ g gs,
      group_words_into_captions loadFont measure (w :: next :: rest) video_width font_size
        font_path max_duration_per_caption pause_threshold max_text_width_ratio = g :: gs ∧
      (g.words = [w, next] ↔
        ¬(next.start - w.«end» > pause_threshold) ∧
        ¬(next.«end» - w.start > max_duration_per_caption) ∧
        (((measure (loadFontOrDefault loadFont font_path) font_size
            (w.word ++ " " ++ next.word)).1 : ℚ) ≤ video_width * max_text_width_ratio)) ∧
      (g.words = [w, next] → g.«end» = next.«end») ∧
      (g.words = [w, next] ∨ g.words = [w]) := by
  obtain ⟨g, gs, h1, h2, h3, h4⟩ :=
    groupRec_step
      (fun s => (((measure (loadFontOrDefault loadFont font_path) font_size s).1 : ℤ) : ℚ))
      (video_width * max_text_width_ratio) max_duration_per_caption pause_threshold w next rest
  exact ⟨g, gs, h1, h2, h3, h4⟩

/-- C4: every 2-word group of the output satisfies the width bound at
the configured font, the pause bound between its words, and the
duration bound on its span. -/
theorem C4_two_word_respect (loadFont : String → Option Font) (measure : TextMeasurer)
    (word_timings : List WordTiming) (video_width : ℚ) (font_size : ℕ) (font_path : String)
    (max_duration_per_caption pause_threshold : ℚ) ( max_text_width_ratio : ℚ)
    (g : CaptionGroup) (w1 w2 : WordTiming)
    (hg : g ∈ group_words_into_captions loadFont measure word_timings video_width font_size
      font_path max_duration_per_caption pause_threshold max_text_width_ratio)
    (hw : g.words = [w1, w2]) :
    (((measure (loadFontOrDefault loadFont font_path) font_size g.word).1 : ℚ) ≤
      video_width * max_text_width_ratio) ∧
    w2.start - w1.«end» ≤ pause_threshold ∧
    g.«end» - g.start ≤ max_duration_per_caption := by
  obtain ⟨htext, hwle, hgap, hdur, _, _⟩ :=
    groupRec_two_word
      (fun s => (((measure (loadFontOrDefault loadFont font_path) font_size s).1 : ℤ) : ℚ))
      (video_width * max_text_width_ratio) max_duration_per_caption pause_threshold
      word_timings g hg w1 w2 hw
  refine ⟨?_, hgap, hdur⟩
  rw [htext]
  exact hwle

/-- Witness for C4 at a concrete two-word input that joins. -/
theorem C4_two_word_respect_witness :
    ((⟨"an gero", 0, 0.45, [cW1, cW2]⟩ : CaptionGroup) ∈
      group_words_into_captions cLoad cMeasure [cW1, cW2] 1000 110 cPath 1.5 0.3 0.9 ∧
      (⟨"an gero", 0, 0.45, [cW1, cW2]⟩ : CaptionGroup).words = [cW1, cW2]) ∧
    ((((cMeasure (loadFontOrDefault cLoad cPath) 110
        (⟨"an gero", 0, 0.45, [cW1, cW2]⟩ : CaptionGroup).word).1 : ℚ) ≤ 1000 * 0.9) ∧
      cW2.start - cW1.«end» ≤ 0.3 ∧
      (⟨"an gero", 0, 0.45, [cW1, cW2]⟩ : CaptionGroup).«end» -
        (⟨"an gero", 0, 0.45, [cW1, cW2]⟩ : CaptionGroup).start ≤ 1.5) :=
  ⟨⟨by with_unfolding_all decide, by with_unfolding_all decide⟩,
    C4_two_word_respect cLoad cMeasure [cW1, cW2] 1000 110 cPath 1.5 0.3 0.9 _ cW1 cW2
      (by with_unfolding_all decide) (by with_unfolding_all decide)⟩

/-- C5: a word whose own rendered width already exceeds the limit is
still emitted alone as a 1-word group; the width check never rejects or
drops a lone word. -/
theorem C5_wide_lone_word (loadFont : String → Option Font) (measure : TextMeasurer)
    (video_width : ℚ) (font_size : ℕ) (font_path : String)
    (max_duration_per_caption pause_threshold : ℚ) ( max_text_width_ratio : ℚ)
    (w : WordTiming)
    (h : (((measure (loadFontOrDefault loadFont font_path) font_size w.word).1 : ℚ)) >
      video_width * max_text_width_ratio) :
    group_words_into_captions loadFont measure [w] video_width font_size font_path
      max_duration_per_caption pause_threshold max_text_width_ratio =
      [⟨w.word, w.start, w.«end», [w]⟩] := rfl

/-- Witness for C5: a 2000 px wide word, frame width 1000, ratio 0.9. -/
theorem C5_wide_lone_word_witness :
    ((((cWideMeasure (loadFontOrDefault cLoad cPath) 110 cW1.word).1 : ℚ)) > 1000 * 0.9) ∧
    group_words_into_captions cLoad cWideMeasure [cW1] 1000 110 cPath 1.5 0.3 0.9 =
      [⟨cW1.word, cW1.start, cW1.«end», [cW1]⟩] :=
  ⟨by with_unfolding_all decide,
    C5_wide_lone_word cLoad cWideMeasure 1000 110 cPath 1.5 0.3 0.9 cW1
      (by with_unfolding_all decide)⟩

/-- C6 counterexample: in an environment where the font path fails to
load, the rendering stage `create_text_image` raises
(`ImageFont.truetype` is not wrapped in any handler) instead of falling
back to the default font. -/
theorem C6_counterexample :
    create_text_image cLoadFail cMeasure ("hi") (1000, 120) 110 (255, 255, 255, 255)
      cPath (0, 0, 0, 0) 8 = .error .fontLoadFailure := rfl

/-- C6 (amended): on font-load failure the segmentation stage falls
back to the built-in default font and continues, but the rendering
stage `create_text_image` performs no fallback and propagates the
failure. -/
theorem C6_font_fallback_amended (loadFont : String → Option Font) (font_path : String)
    (h : loadFont font_path = none) :
    (∀ (measure : TextMeasurer) (word_timings : List WordTiming) (video_width : ℚ)
      (font_size : ℕ) (max_duration_per_caption pause_threshold : ℚ)
      ( max_text_width_ratio : ℚ),
      group_words_into_captions loadFont measure word_timings video_width font_size font_path
        max_duration_per_caption pause_threshold max_text_width_ratio =
        groupWordsRec (fun s => (((measure defaultFont font_size s).1 : ℤ) : ℚ))
          (video_width * max_text_width_ratio) max_duration_per_caption pause_threshold
          word_timings) ∧
    (∀ (measure : TextMeasurer) (text : String) (size : ℤ × ℤ) (font_size : ℕ)
      (color bg_color : ℕ × ℕ × ℕ × ℕ) (border_size : ℕ),
      create_text_image loadFont measure text size font_size color font_path bg_color
        border_size = .error .fontLoadFailure) := by
  constructor
  · intro measure ws vw fs md pt r
    simp [group_words_into_captions, loadFontOrDefault, h]
  · intro measure text size fs color bg b
    simp [create_text_image, h]

/-- Witness for C6 (amended) in a concrete failing environment. -/
theorem C6_font_fallback_amended_witness :
    cLoadFail cPath = none ∧
    group_words_into_captions cLoadFail cMeasure [cW1] 1000 110 cPath 1.5 0.3 0.9 =
      groupWordsRec (fun s => (((cMeasure defaultFont 110 s).1 : ℤ) : ℚ)) (1000 * 0.9)
        1.5 0.3 [cW1] ∧
    create_text_image cLoadFail cMeasure ("hi") (1000, 120) 110 (255, 255, 255, 255)
      cPath (0, 0, 0, 0) 8 = .error .fontLoadFailure :=
  ⟨rfl,
    (C6_font_fallback_amended cLoadFail cPath rfl).1 cMeasure [cW1] 1000 110 1.5 0.3 0.9,
    (C6_font_fallback_amended cLoadFail cPath rfl).2 cMeasure ("hi") (1000, 120) 110
      (255, 255, 255, 255) (0, 0, 0, 0) 8⟩

/-- C7 counterexample: a `max_text_width_ratio` of 2 lies outside
`(0,1]`, yet segmentation is not rejected — it runs and produces its
normal output. -/
theorem C7_counterexample :
    group_words_into_captions cLoad cMeasure [cW1] 1000 110 cPath 1.5 0.3 2 =
      [⟨"an", 0, 0.2, [cW1]⟩] ∧ ¬((2 : ℚ) ≤ 1) :=
  ⟨by with_unfolding_all decide, by with_unfolding_all decide⟩

/-- C7 (amended): the code performs no configuration validation: for
every `max_text_width_ratio`, inside `(0,1]` or not, segmentation
proceeds normally, and a nonempty input yields a nonempty output rather
than a hard failure. -/
theorem C7_no_validation_amended (loadFont : String → Option Font) (measure : TextMeasurer)
    (word_timings : List WordTiming) (video_width : ℚ) (font_size : ℕ) (font_path : String)
    (max_duration_per_caption pause_threshold : ℚ) ( max_text_width_ratio : ℚ)
    (h : word_timings ≠ []) :
    group_words_into_captions loadFont measure word_timings video_width font_size font_path
      max_duration_per_caption pause_threshold max_text_width_ratio ≠ [] :=
  groupRec_ne_nil _ _ _ _ word_timings h

/-- Witness for C7 (amended) at the invalid ratio 2. -/
theorem C7_no_validation_amended_witness :
    ([cW1] ≠ ([] : List WordTiming)) ∧
    group_words_into_captions cLoad cMeasure [cW1] 1000 110 cPath 1.5 0.3 2 ≠ [] :=
  ⟨by simp,
    C7_no_validation_amended cLoad cMeasure [cW1] 1000 110 cPath 1.5 0.3 2 (by simp)⟩

/-- A successfully rendered canvas has the enlarged dimensions computed
from the `size` argument, the border and half the font size. -/
theorem create_text_image_dims (loadFont : String → Option Font) (measure : TextMeasurer)
    (text : String) (size : ℤ × ℤ) (font_size : ℕ) (color : ℕ × ℕ × ℕ × ℕ)
    (font_path : String) (bg_color : ℕ × ℕ × ℕ × ℕ) (border_size : ℕ) (img : TextImage)
    (h : create_text_image loadFont measure text size font_size color font_path bg_color
      border_size = .ok img) :
    img.width = size.1 + (border_size : ℤ) * 2 ∧
    img.height = size.2 + (border_size : ℤ) * 2 + ((font_size / 2 : ℕ) : ℤ) := by
  unfold create_text_image at h
  split at h
  · exact absurd h (by simp)
  · injection h with h
    subst h
    exact ⟨rfl, rfl⟩

/-- Every clip produced by the rendering loop has canvas width
`video_width + 2*8` and height `120 + 2*8 + 110/2`. -/
theorem captionClipsGo_dims (loadFont : String → Option Font) (measure : TextMeasurer)
    (video_width : ℤ) (y_position : ℚ) (font_path : String) :
    ∀ (l : List CaptionGroup) (clips : List CaptionClip),
      captionClipsGo loadFont measure video_width y_position font_path l = .ok clips →
      ∀ c ∈ clips, c.img.width = video_width + 2 * 8 ∧
        c.img.height = 120 + 2 * 8 + 110 / 2 := by
  intro l
  induction l with
  | nil =>
    intro clips h c hc
    simp only [captionClipsGo] at h
    injection h with h
    subst h
    simp at hc
  | cons w rest ih =>
    intro clips h c hc
    simp only [captionClipsGo] at h
    split at h
    · exact absurd h (by simp)
    · split at h
      · exact absurd h (by simp)
      · injection h with h
        subst h
        rcases List.mem_cons.mp hc with rfl | hc2
        · have hd := create_text_image_dims loadFont measure w.word (video_width, 120) 110
            (255, 255, 255, 255) font_path (0, 0, 0, 0) 8 _ (by assumption)
          simpa using hd
        · exact ih _ (by assumption) c hc2

/-- C8 counterexample: a caption whose measured text is 20 px wide on a
1000 px frame is rendered on a canvas 1016 px wide
(`video_width + 2*border_size`), not 36 px (`text_width +
2*border_size`) as claimed. -/
theorem C8_counterexample :
    ((create_caption_clips cLoad cMeasure [cGroupHi] 1000 2000 cPath).toOption.map
      (fun cs => cs.map (fun c => c.img.width))) = some [1016] ∧
    ((cMeasure cFont 110 cGroupHi.word).1 + 2 * 8 : ℤ) = 36 ∧ ((1016 : ℤ) ≠ 36) :=
  ⟨by with_unfolding_all decide, by with_unfolding_all decide, by with_unfolding_all decide⟩

/-- C8 (amended): the layout stage passes the frame width, not the
measured text width, as the base canvas width: every rendered caption
canvas has width `video_width + 2*border_size` and height
`base_height + 2*border_size + font_size/2` with `base_height = 120`,
`border_size = 8`, `font_size = 110`. -/
theorem C8_canvas_size_amended (loadFont : String → Option Font) (measure : TextMeasurer)
    (word_timings : List CaptionGroup) (video_width : ℤ) (video_height : ℚ)
    (font_path : String) (clips : List CaptionClip)
    (h : create_caption_clips loadFont measure word_timings video_width video_height
      font_path = .ok clips) :
    ∀ c ∈ clips, c.img.width = video_width + 2 * 8 ∧
      c.img.height = 120 + 2 * 8 + 110 / 2 :=
  captionClipsGo_dims loadFont measure video_width _ font_path word_timings clips h

/-- Witness for C8 (amended) at a concrete rendering run. -/
theorem C8_canvas_size_amended_witness :
    (∃ clips, create_caption_clips cLoad cMeasure [cGroupHi] 1000 2000 cPath = .ok clips ∧
      ∀ c ∈ clips, c.img.width = 1000 + 2 * 8 ∧ c.img.height = 120 + 2 * 8 + 110 / 2) := by
  refine ⟨(create_caption_clips cLoad cMeasure [cGroupHi] 1000 2000 cPath).toOption.getD [],
    ?_, ?_⟩
  · with_unfolding_all decide
  · exact C8_canvas_size_amended cLoad cMeasure [cGroupHi] 1000 2000 cPath _
      (by with_unfolding_all decide)

/-- C9: contrary to the documented clamp to `[0.8 s, 3.0 s]`, the code
sets each clip's duration to the raw `end - start` of its group with no
clamping: a ten-second grouped caption yields a clip displayed for ten
seconds. -/
theorem C9_unclamped_duration :
    ((create_caption_clips cLoad cMeasure [cLong] 1000 2000 cPath).toOption.map
      (fun cs => cs.map (fun c => c.duration))) = some [10] ∧ ¬((10 : ℚ) ≤ 3) :=
  ⟨by with_unfolding_all decide, by with_unfolding_all decide⟩

/-- When the font loads, `create_text_image` returns exactly the
enlarged canvas with the square of black border stamps followed by the
foreground draw. -/
theorem create_text_image_ops (loadFont : String → Option Font) (measure : TextMeasurer)
    (text : String) (size : ℤ × ℤ) (font_size : ℕ) (color : ℕ × ℕ × ℕ × ℕ)
    (font_path : String) (bg_color : ℕ × ℕ × ℕ × ℕ) (border_size : ℕ) (font : Font)
    (h : loadFont font_path = some font) :
    create_text_image loadFont measure text size font_size color font_path bg_color
      border_size =
      .ok ⟨size.1 + (border_size : ℤ) * 2,
        size.2 + (border_size : ℤ) * 2 + ((font_size / 2 : ℕ) : ℤ), bg_color,
        ((borderOffsets border_size).flatMap fun x_offset =>
          (borderOffsets border_size).map fun y_offset =>
            ⟨((ctiPos measure text size font_size border_size font).1 + x_offset,
              (ctiPos measure text size font_size border_size font).2 + y_offset),
              text, (0, 0, 0, 255)⟩) ++
        [⟨ctiPos measure text size font_size border_size font, text, color⟩]⟩ := by
  simp only [create_text_image, h]
  rfl

/-- C10: the border layer of `create_text_image` stamps the glyphs in
opaque black at every integer offset of the square
`[-border_size, border_size]²` before the main draw, and is identical
for any two foreground colors: only the final draw uses `color`. -/
theorem C10_border_stamps (loadFont : String → Option Font) (measure : TextMeasurer)
    (text : String) (size : ℤ × ℤ) (font_size : ℕ) (c1 c2 : ℕ × ℕ × ℕ × ℕ)
    (font_path : String) (bg_color : ℕ × ℕ × ℕ × ℕ) (border_size : ℕ) (font : Font)
    (h : loadFont font_path = some font) :
    ∃ img1 img2 pos,
      create_text_image loadFont measure text size font_size c1 font_path bg_color
        border_size = .ok img1 ∧
      create_text_image loadFont measure text size font_size c2 font_path bg_color
        border_size = .ok img2 ∧
      img1.ops.dropLast = img2.ops.dropLast ∧
      (∀ op ∈ img1.ops.dropLast, op.fill = (0, 0, 0, 255) ∧ op.text = text) ∧
      (∀ dx dy : ℤ, -(border_size : ℤ) ≤ dx → dx ≤ (border_size : ℤ) →
        -(border_size : ℤ) ≤ dy → dy ≤ (border_size : ℤ) →
        (⟨(pos.1 + dx, pos.2 + dy), text, (0, 0, 0, 255)⟩ : DrawOp) ∈ img1.ops.dropLast) ∧
      img1.ops.getLast? = some ⟨pos, text, c1⟩ ∧
      img2.ops.getLast? = some ⟨pos, text, c2⟩ := by
  refine ⟨_, _, ctiPos measure text size font_size border_size font,
    create_text_image_ops loadFont measure text size font_size c1 font_path bg_color
      border_size font h,
    create_text_image_ops loadFont measure text size font_size c2 font_path bg_color
      border_size font h, ?_, ?_, ?_, ?_, ?_⟩
  · rw [List.dropLast_concat, List.dropLast_concat]
  · rw [List.dropLast_concat]
    intro op hop
    obtain ⟨dx, _, hop2⟩ := List.mem_flatMap.mp hop
    obtain ⟨dy, _, rfl⟩ := List.mem_map.mp hop2
    exact ⟨rfl, rfl⟩
  · intro dx dy h1 h2 h3 h4
    rw [List.dropLast_concat]
    exact List.mem_flatMap.mpr ⟨dx, mem_borderOffsets.mpr ⟨h1, h2⟩,
      List.mem_map.mpr ⟨dy, mem_borderOffsets.mpr ⟨h3, h4⟩, rfl⟩⟩
  · rw [List.getLast?_concat]
  · rw [List.getLast?_concat]

/-- Witness for C10 in a concrete loading environment with two distinct
foreground colors. -/
theorem C10_border_stamps_witness :
    cLoad cPath = some cFont ∧
    (∃ img1 img2 pos,
      create_text_image cLoad cMeasure ("hi") (1000, 120) 110 (255, 255, 255, 255)
        cPath (0, 0, 0, 0) 8 = .ok img1 ∧
      create_text_image cLoad cMeasure ("hi") (1000, 120) 110 (255, 0, 0, 255)
        cPath (0, 0, 0, 0) 8 = .ok img2 ∧
      img1.ops.dropLast = img2.ops.dropLast ∧
      (∀ op ∈ img1.ops.dropLast, op.fill = (0, 0, 0, 255) ∧ op.text = "hi") ∧
      (∀ dx dy : ℤ, -((8 : ℕ) : ℤ) ≤ dx → dx ≤ ((8 : ℕ) : ℤ) →
        -((8 : ℕ) : ℤ) ≤ dy → dy ≤ ((8 : ℕ) : ℤ) →
        (⟨(pos.1 + dx, pos.2 + dy), "hi", (0, 0, 0, 255)⟩ : DrawOp) ∈ img1.ops.dropLast) ∧
      img1.ops.getLast? = some ⟨pos, "hi", (255, 255, 255, 255)⟩ ∧
      img2.ops.getLast? = some ⟨pos, "hi", (255, 0, 0, 255)⟩) :=
  ⟨rfl,
    C10_border_stamps cLoad cMeasure ("hi") (1000, 120) 110 (255, 255, 255, 255)
      (255, 0, 0, 255) cPath (0, 0, 0, 0) 8 cFont rfl⟩
